import Mathlib

/-!
Verification of the SDAM (Server Discovery and Monitoring) JSON test runner
(`src/mongo/client/sdam/sdam_json_test_runner.cpp`) and of the topology
data-flow properties its specification states.

The embedding models the BSON values the runner inspects, the server and
topology description snapshots it validates, and the runner's parsing,
execution and reporting logic. Fallible C++ code (BSON accessors that throw,
`uassertStatusOK`, `MONGO_UNREACHABLE`) is modelled with `Option`/`Except`:
`none` stands for a thrown `DBException` aborting the enclosing computation.
-/

namespace Sdam

/-- A BSON value, restricted to the shapes the test runner inspects:
null, 32-bit style integers, strings, booleans, ObjectIds (modelled as an
opaque string), documents and arrays. -/
inductive BVal : Type where
  | vnull : BVal
  | vint (n : Int) : BVal
  | vstr (s : String) : BVal
  | vbool (b : Bool) : BVal
  | voidv (o : String) : BVal
  | vobj (fields : List (String × BVal)) : BVal
  | varr (elems : List BVal) : BVal

/-- A BSON document: an ordered list of named fields. -/
abbrev BObj : Type := List (String × BVal)

/-- `BSONObj::getField` / `operator[]`: the first field with the given name,
`none` standing for the eoo (end-of-object) element of a missing field. -/
def bsonGetField (o : BObj) (name : String) : Option BVal :=
  (o.find? (fun f => f.1 == name)).map Prod.snd

/-- `BSONObj::hasField`. -/
def bsonHasField (o : BObj) (name : String) : Bool :=
  o.any (fun f => f.1 == name)

/-- `BSONElement::numberInt()`: total, returning the integer value of a
numeric element and 0 for any non-numeric (including eoo/missing) element. -/
def numberInt : Option BVal → Int
  | some (BVal.vint n) => n
  | _ => 0

/-- `BSONElement::isNull()`: the element exists and has BSON type null.
A missing field (eoo) is NOT null. -/
def isNullField : Option BVal → Bool
  | some BVal.vnull => true
  | _ => false

/-- `BSONElement::String()`: throws unless the element is a string. -/
def bsonString : Option BVal → Option String
  | some (BVal.vstr s) => some s
  | _ => none

/-- `BSONElement::Bool()`: throws unless the element is a boolean. -/
def bsonBool : Option BVal → Option Bool
  | some (BVal.vbool b) => some b
  | _ => none

/-- `BSONElement::OID()`: throws unless the element is an ObjectId. -/
def bsonOID : Option BVal → Option String
  | some (BVal.voidv o) => some o
  | _ => none

/-- The server types of the SDAM data model (spec section 3). -/
inductive ServerType : Type where
  | kUnknown | kStandalone | kMongos | kPossiblePrimary
  | kRSPrimary | kRSSecondary | kRSArbiter | kRSOther | kRSGhost
deriving DecidableEq, Repr

/-- The topology types of the SDAM data model. -/
inductive TopologyType : Type where
  | kUnknown | kSingle | kReplicaSetNoPrimary | kReplicaSetWithPrimary | kSharded
deriving DecidableEq, Repr

/-- Modelled from the spec: the printable name of each topology type, as the
test files spell them (the `toString` used at the `topologyType` check lives
in sdam code outside this repository's files). -/
def topologyTypeToString : TopologyType → String
  | TopologyType.kUnknown => "Unknown"
  | TopologyType.kSingle => "Single"
  | TopologyType.kReplicaSetNoPrimary => "ReplicaSetNoPrimary"
  | TopologyType.kReplicaSetWithPrimary => "ReplicaSetWithPrimary"
  | TopologyType.kSharded => "Sharded"

/-- Modelled from the spec: `parseServerType` (declared in sdam code outside
this repository's files) maps each server type's printable name to the type
and fails with a status message on anything else. -/
def parseServerType (s : String) : Except String ServerType :=
  if s == "Unknown" then Except.ok ServerType.kUnknown
  else if s == "Standalone" then Except.ok ServerType.kStandalone
  else if s == "Mongos" then Except.ok ServerType.kMongos
  else if s == "PossiblePrimary" then Except.ok ServerType.kPossiblePrimary
  else if s == "RSPrimary" then Except.ok ServerType.kRSPrimary
  else if s == "RSSecondary" then Except.ok ServerType.kRSSecondary
  else if s == "RSArbiter" then Except.ok ServerType.kRSArbiter
  else if s == "RSOther" then Except.ok ServerType.kRSOther
  else if s == "RSGhost" then Except.ok ServerType.kRSGhost
  else Except.error ("Unknown server type: " ++ s)

/-- Modelled from the spec: an immutable snapshot of one server's observed
state, restricted to the fields the test runner's validation reads through
the `ServerDescription` accessors. ObjectIds are modelled as strings,
durations as integers. -/
structure ServerDescription : Type where
  address : String
  stype : ServerType
  setName : Option String
  setVersion : Option Int
  electionId : Option String
  logicalSessionTimeoutMinutes : Option Int
  minWireVersion : Int
  maxWireVersion : Int
deriving DecidableEq, Repr

/-- Modelled from the spec: the aggregate topology snapshot, restricted to
the fields the test runner's validation reads through the
`TopologyDescription` accessors. -/
structure TopologyDescription : Type where
  ttype : TopologyType
  setName : Option String
  logicalSessionTimeoutMinutes : Option Int
  maxSetVersion : Option Int
  maxElectionId : Option String
  compatible : Bool
deriving DecidableEq, Repr

/-- Modelled from the spec (section 6): a per-server result submitted to the
Topology Manager: success carries the decoded reply and the measured
latency; failure carries only an error description, no reply payload.
The constructor calls are transcribed from `TestCasePhase::TestCasePhase`. -/
inductive IsMasterOutcome : Type where
  | success (address : String) (response : BObj) (rtt : Int) : IsMasterOutcome
  | failure (address : String) (errorMsg : String) : IsMasterOutcome

/-- `TestCasePhase::kLatency`: the fixed latency (100 ms) attached to every
successful response; the json tests do not use its value. -/
def kLatency : Int := 100

/-- Single-quote character, used by the error messages. -/
def sq : String := (Char.ofNat 39).toString

/-- `TestCasePhase::errorMessageNotEqual`: the mismatch message; note the
source prints the actual value first. -/
def errorMessageNotEqual (expected actual : String) : String :=
  "expected " ++ sq ++ actual ++ sq ++ " to equal " ++ sq ++ expected ++ sq

/-- `TestCasePhase::serverDescriptionFieldName`. -/
def serverDescriptionFieldName (sd : ServerDescription) (field : String) : String :=
  "(" ++ sd.address ++ ") " ++ field

/-- `TestCasePhase::topologyDescriptionFieldName`. -/
def topologyDescriptionFieldName (field : String) : String :=
  "(topologyDescription) " ++ field

/-- `TestCasePhase::TestPhaseError`: a pair of error subject and error
description. -/
abbrev TestPhaseError : Type := String × String

/-- `TestCasePhase::PhaseResult`. -/
structure PhaseResult : Type where
  errorDescriptions : List TestPhaseError
  phaseNumber : Int
deriving DecidableEq, Repr

/-- `PhaseResult::Success`: no error was recorded. -/
def PhaseResult.success (r : PhaseResult) : Bool :=
  r.errorDescriptions.isEmpty

/-- One response pair of a phase: `pair[0].String()` and `pair[1].Obj()`,
throwing (`none`) when the element is not an array of at least an address
string and a reply document. -/
def decodeResponsePair (v : BVal) : Option (String × BObj) :=
  match v with
  | BVal.varr es =>
    match es[0]?, es[1]? with
    | some (BVal.vstr addr), some (BVal.vobj o) => some (addr, o)
    | _, _ => none
  | _ => none

/-- The loop body of `TestCasePhase::TestCasePhase`: each decoded response
pair becomes an `IsMasterOutcome`; a decoded reply with zero fields becomes
a failure outcome with the message "network error", any other reply a
success outcome carrying the reply and `kLatency`. -/
def mkResponses : List BVal → Option (List IsMasterOutcome)
  | [] => some []
  | v :: rest =>
    match decodeResponsePair v with
    | none => none
    | some p =>
      match mkResponses rest with
      | none => none
      | some tail =>
        some ((if p.2.length == 0 then IsMasterOutcome.failure p.1 "network error"
               else IsMasterOutcome.success p.1 p.2 kLatency) :: tail)

/-- `TestCasePhase`: the parsed phase. The URI is carried but unused by the
phase logic modelled here. -/
structure TestCasePhase : Type where
  phaseNum : Int
  isMasterResponses : List IsMasterOutcome
  topologyOutcome : BObj

/-- `TestCasePhase::TestCasePhase`: reads the `responses` array, converts
each pair, then reads the `outcome` document. A missing or ill-typed field
throws (`none`). -/
def mkTestCasePhase (phaseNum : Int) (phase : BObj) : Option TestCasePhase :=
  match bsonGetField phase "responses" with
  | some (BVal.varr xs) =>
    (match mkResponses xs with
     | none => none
     | some outcomes =>
       match bsonGetField phase "outcome" with
       | some (BVal.vobj o) => some ⟨phaseNum, outcomes, o⟩
       | _ => none)
  | _ => none

/-- `MongoURI`, restricted to what `JsonTestCase::parseTest` reads: the
server list and the connection-string options. -/
structure MongoURI : Type where
  servers : List String
  options : List (String × String)
deriving DecidableEq, Repr

/-- `MongoURI::getOption`. -/
def MongoURI.getOption (uri : MongoURI) (name : String) : Option String :=
  (uri.options.find? (fun p => p.1 == name)).map Prod.snd

/-- The initial-topology-type selection of `JsonTestCase::parseTest`
(lines 604-616): a `replicaSet` option forces ReplicaSetNoPrimary; otherwise
a single-element seed list gives Single, anything else Unknown. -/
def initialTopologyType (uri : MongoURI) : TopologyType :=
  match uri.getOption "replicaSet" with
  | none =>
    if uri.servers.length == 1 then TopologyType.kSingle
    else TopologyType.kUnknown
  | some _ => TopologyType.kReplicaSetNoPrimary

end Sdam

namespace Sdam

/-- The expected-value extraction of the `setName`-like optional server
fields in `TestCasePhase::validateServerField`: a BSON null gives the absent
optional; a string gives the present value; anything else throws. -/
def expOptString (v : BVal) : Option (Option String) :=
  match v with
  | BVal.vnull => some none
  | BVal.vstr s => some (some s)
  | _ => none

/-- The expected-value extraction of the `setVersion` and
`logicalSessionTimeoutMinutes` server fields: a BSON null gives the absent
optional, anything else `numberInt` (total, 0 on non-numeric). -/
def expOptInt (v : BVal) : Option Int :=
  match v with
  | BVal.vnull => none
  | w => some (numberInt (some w))

/-- The expected-value extraction of the `electionId` server field: null
gives the absent optional; an ObjectId gives the present value; anything
else throws. -/
def expOptOID (v : BVal) : Option (Option String) :=
  match v with
  | BVal.vnull => some none
  | BVal.voidv o => some (some o)
  | _ => none

/-- `TestCasePhase::doValidateServerField`, specialised to an expected value
already obtained: pushes one error when expected and actual differ. -/
def doValidateServerField {α : Type} [BEq α] (sd : ServerDescription)
    (fieldName : String) (show₀ : α → String) (expected actual : α) :
    List TestPhaseError :=
  if expected == actual then []
  else [(serverDescriptionFieldName sd fieldName,
         errorMessageNotEqual (show₀ expected) (show₀ actual))]

/-- How boost prints an optional in the error messages: the value, or "--"
when absent. -/
def showOpt (f : α → String) : Option α → String
  | none => "--"
  | some v => f v

/-- `Int` printed as in the C++ stream output. -/
def showInt (n : Int) : String := toString n

/-- `TestCasePhase::validateServerField`: dispatch on the expected field's
name; `none` models a thrown exception (ill-typed expected value) and also
the `MONGO_UNREACHABLE` abort on an unknown field name. Returns the list of
errors the source pushes onto the phase result, in push order. -/
def validateServerField (sd : ServerDescription) (fieldName : String)
    (expectedField : BVal) : Option (List TestPhaseError) :=
  if fieldName == "type" then
    match bsonString (some expectedField) with
    | none => none
    | some s =>
      match parseServerType s with
      | Except.ok t =>
        some (doValidateServerField sd fieldName reprStr t sd.stype)
      | Except.error msg =>
        -- the obtainer records the parse error itself and returns the actual
        -- value, so the subsequent comparison cannot add a second error
        some ((serverDescriptionFieldName sd "type", msg)
          :: doValidateServerField sd fieldName reprStr sd.stype sd.stype)
  else if fieldName == "setName" then
    match expOptString expectedField with
    | none => none
    | some expected =>
      some (doValidateServerField sd fieldName (showOpt id) expected sd.setName)
  else if fieldName == "setVersion" then
    some (doValidateServerField sd fieldName (showOpt showInt)
      (expOptInt expectedField) sd.setVersion)
  else if fieldName == "electionId" then
    match expOptOID expectedField with
    | none => none
    | some expected =>
      some (doValidateServerField sd fieldName (showOpt id) expected sd.electionId)
  else if fieldName == "logicalSessionTimeoutMinutes" then
    some (doValidateServerField sd fieldName (showOpt showInt)
      (expOptInt expectedField) sd.logicalSessionTimeoutMinutes)
  else if fieldName == "minWireVersion" then
    some (doValidateServerField sd fieldName showInt
      (numberInt (some expectedField)) sd.minWireVersion)
  else if fieldName == "maxWireVersion" then
    some (doValidateServerField sd fieldName showInt
      (numberInt (some expectedField)) sd.maxWireVersion)
  else none

/-- `TestCasePhase::doValidateTopologyDescriptionField`, specialised to an
expected value already obtained. -/
def doValidateTDField {α : Type} [BEq α] (fieldName : String)
    (show₀ : α → String) (expected actual : α) : List TestPhaseError :=
  if expected == actual then []
  else [(topologyDescriptionFieldName fieldName,
         errorMessageNotEqual (show₀ expected) (show₀ actual))]

/-- The expected `topologyType` of an outcome document:
`bsonTopologyDescription["topologyType"].String()`, throwing unless the
field is present and a string. -/
def expTopologyType (o : BObj) : Option String :=
  bsonString (bsonGetField o "topologyType")

/-- The expected `setName` of an outcome document: absent when the field is
BSON null, otherwise `String()` (throwing on a missing or non-string
field). -/
def expSetNameTD (o : BObj) : Option (Option String) :=
  match bsonGetField o "setName" with
  | some BVal.vnull => some none
  | some (BVal.vstr s) => some (some s)
  | _ => none

/-- The expected `logicalSessionTimeoutMinutes` of an outcome document:
absent when the field is BSON null, otherwise `numberInt()` — total, so a
MISSING field yields the present value 0. -/
def expLsTimeoutTD (o : BObj) : Option Int :=
  if isNullField (bsonGetField o "logicalSessionTimeoutMinutes") then none
  else some (numberInt (bsonGetField o "logicalSessionTimeoutMinutes"))

/-- The expected `maxSetVersion` of an outcome document (only consulted when
the field is present): absent when BSON null, otherwise `numberInt()`. -/
def expMaxSetVersionTD (o : BObj) : Option Int :=
  if isNullField (bsonGetField o "maxSetVersion") then none
  else some (numberInt (bsonGetField o "maxSetVersion"))

/-- The expected `maxElectionId` of an outcome document (only consulted when
the field is present): absent when BSON null, a present ObjectId otherwise;
anything else throws. -/
def expMaxElectionIdTD (o : BObj) : Option (Option String) :=
  match bsonGetField o "maxElectionId" with
  | some BVal.vnull => some none
  | some (BVal.voidv e) => some (some e)
  | _ => none

/-- The expected `compatible` flag of an outcome document (only consulted
when the field is present): `Bool()`, throwing on a non-boolean. -/
def expCompatibleTD (o : BObj) : Option Bool :=
  bsonBool (bsonGetField o "compatible")

/-- `TestCasePhase::validateTopologyDescription`: validates, in source
order, `topologyType`, `setName` and `logicalSessionTimeoutMinutes`
unconditionally, and `maxSetVersion`, `maxElectionId` and `compatible` only
when the outcome document has the field. Returns the errors pushed, in
order; `none` models an exception thrown while obtaining an expected value,
which aborts the remaining checks. -/
def validateTopologyDescription (td : TopologyDescription) (o : BObj) :
    Option (List TestPhaseError) :=
  match expTopologyType o with
  | none => none
  | some tt =>
    let e1 := doValidateTDField "topologyType" id tt (topologyTypeToString td.ttype)
    match expSetNameTD o with
    | none => none
    | some sn =>
      let e2 := doValidateTDField "setName" (showOpt id) sn td.setName
      let e3 := doValidateTDField "logicalSessionTimeoutMinutes" (showOpt showInt)
        (expLsTimeoutTD o) td.logicalSessionTimeoutMinutes
      let e4 :=
        if bsonHasField o "maxSetVersion" then
          doValidateTDField "maxSetVersion" (showOpt showInt)
            (expMaxSetVersionTD o) td.maxSetVersion
        else []
      match (if bsonHasField o "maxElectionId" then
               (expMaxElectionIdTD o).map (fun e =>
                 doValidateTDField "maxElectionId" (showOpt id) e td.maxElectionId)
             else some []) with
      | none => none
      | some e5 =>
        match (if bsonHasField o "compatible" then
                 (expCompatibleTD o).map (fun b =>
                   doValidateTDField "compatible" (fun x => toString x) b td.compatible)
               else some []) with
        | none => none
        | some e6 => some (e1 ++ e2 ++ e3 ++ e4 ++ e5 ++ e6)

end Sdam

namespace Sdam

/-- `JsonTestCase::TestCaseResult`. -/
structure TestCaseResult : Type where
  phaseResults : List PhaseResult
  file : String
  name : String
deriving DecidableEq, Repr

/-- `TestCaseResult::Success`: every phase result succeeded. -/
def TestCaseResult.success (r : TestCaseResult) : Bool :=
  r.phaseResults.all PhaseResult.success

/-- The phase loop of `JsonTestCase::execute`, abstracted over the topology
manager state `S` and the per-phase step (running one phase both mutates the
manager and yields a `PhaseResult`; the manager's own transition code is not
part of this repository's files). Transcribes the loop: push the phase
result, then break as soon as the accumulated result list is not a success. -/
def execPhaseLoop {S A : Type} (step : S → A → PhaseResult × S) :
    S → List A → List PhaseResult → List PhaseResult
  | _, [], acc => acc
  | s, p :: rest, acc =>
    let r := step s p
    let acc2 := acc ++ [r.1]
    if acc2.all PhaseResult.success then execPhaseLoop step r.2 rest acc2
    else acc2

/-- `JsonTestCase::execute`, with the manager state abstracted: runs the
phases from an initial manager state with an empty result list. -/
def executeCase {S A : Type} (step : S → A → PhaseResult × S) (s : S)
    (phases : List A) : List PhaseResult :=
  execPhaseLoop step s phases []

/-- The phase results of running every phase sequentially, with no early
exit: the reference against which the loop's truncation is stated. -/
def allPhaseResults {S A : Type} (step : S → A → PhaseResult × S) :
    S → List A → List PhaseResult
  | _, [] => []
  | s, p :: rest =>
    let r := step s p
    r.1 :: allPhaseResults step r.2 rest

/-- The prefix of a result list up to and including its first failing
element: the spec-level description of early exit. -/
def takeUntilFail : List PhaseResult → List PhaseResult
  | [] => []
  | r :: rest => if r.success then r :: takeUntilFail rest else [r]

/-- One test file as consumed by `SdamJsonTestRunner::runTests`: its path,
the parsed test's name, and the outcome of `JsonTestCase::execute` — either
a result or the message of a thrown `DBException`. -/
structure TestFileRun : Type where
  path : String
  name : String
  exec : Except String TestCaseResult
deriving Repr

/-- The error string built in the `catch` block of
`SdamJsonTestRunner::runTests`. -/
def excMessage (path err : String) : String :=
  "Exception while executing " ++ path ++ ": " ++ err

/-- The failed result the `catch` block of `SdamJsonTestRunner::runTests`
records for a file whose execution threw: a single phase result numbered 0
holding the single error ("exception", message). -/
def exceptionCaseResult (path name err : String) : TestCaseResult :=
  ⟨[⟨[("exception", excMessage path err)], 0⟩], path, name⟩

/-- `SdamJsonTestRunner::runTests`: executes every test file in order; a
file whose execution throws contributes the exception result and the loop
continues with the remaining files. -/
def runTests (files : List TestFileRun) : List TestCaseResult :=
  files.map (fun f =>
    match f.exec with
    | Except.ok r => r
    | Except.error e => exceptionCaseResult f.path f.name e)

/-- `SdamJsonTestRunner::report`: counts successes and failures with the
source's fold over results and returns the number of failed test cases
(the process exit value in `main`). -/
def report (results : List TestCaseResult) : Int :=
  (results.foldl
    (fun (acc : Int × Int) r =>
      if r.success then (acc.1 + 1, acc.2) else (acc.1, acc.2 + 1))
    (0, 0)).2

/-- `main`: the process return value is `report` applied to the results of
`runTests`. -/
def mainResult (files : List TestFileRun) : Int :=
  report (runTests files)

/-- Modelled from the spec (sections 3, 4.3): the part of the Topology
Manager's snapshot the monotonicity guard concerns — the
(maxSetVersion, maxElectionId) pair; ObjectIds are modelled as integers so
that their ordering is explicit. The Manager's transition code is not part
of this repository's files. -/
structure TopologySnapshot : Type where
  maxSetVersion : Option Int
  maxElectionId : Option Int
deriving DecidableEq, Repr

/-- Modelled from the spec: an incoming primary report's versioning fields. -/
structure ServerReport : Type where
  isPrimary : Bool
  setVersion : Option Int
  electionId : Option Int
deriving DecidableEq, Repr

/-- The strict order on an optional version component: a missing value sorts
lowest (spec section 4.3 step 2). -/
def optLt : Option Int → Option Int → Bool
  | none, none => false
  | none, some _ => true
  | some _, none => false
  | some a, some b => decide (a < b)

/-- The defined lexicographic strict order on (maxSetVersion, maxElectionId)
pairs. -/
def pairLt (p q : Option Int × Option Int) : Bool :=
  optLt p.1 q.1 || (p.1 == q.1 && optLt p.2 q.2)

/-- The defined lexicographic order (non-strict). -/
def pairLe (p q : Option Int × Option Int) : Bool :=
  pairLt p q || p == q

/-- The version pair of a snapshot. -/
def TopologySnapshot.pair (s : TopologySnapshot) : Option Int × Option Int :=
  (s.maxSetVersion, s.maxElectionId)

/-- Modelled from the spec (section 4.3 steps 2 and 5): applying one
per-server update to the snapshot's version pair. A non-primary report
leaves the pair unchanged; a stale primary report (pair below the current
maximum) is rejected; an accepted primary report raises the pair to the
maximum of current and incoming under the lexicographic order. -/
def applyUpdate (s : TopologySnapshot) (u : ServerReport) : TopologySnapshot :=
  if u.isPrimary then
    let inc := (u.setVersion, u.electionId)
    if pairLt s.pair inc then ⟨inc.1, inc.2⟩ else s
  else s

end Sdam

namespace Sdam

/-- C2: the initial topology type of `JsonTestCase::parseTest`: a
`replicaSet` URI option forces ReplicaSetNoPrimary; otherwise a one-element
seed list gives Single and any other seed list gives Unknown. -/
theorem c2_initial_topology_type (uri : MongoURI) :
    initialTopologyType uri =
      if (uri.getOption "replicaSet").isSome then TopologyType.kReplicaSetNoPrimary
      else if uri.servers.length = 1 then TopologyType.kSingle
      else TopologyType.kUnknown := by
  unfold initialTopologyType
  cases h : uri.getOption "replicaSet" <;> simp [h]

/-- C10: when the expected server `type` string fails to parse, exactly one
error (the parse failure) is recorded, and no second mismatch error follows
because the actual server type is substituted as the expected value. -/
theorem c10_type_parse_failure_single_error (sd : ServerDescription)
    (s msg : String) (h : parseServerType s = Except.error msg) :
    validateServerField sd "type" (BVal.vstr s) =
      some [(serverDescriptionFieldName sd "type", msg)] := by
  simp [validateServerField, bsonString, h, doValidateServerField]

/-- Witness for C10 at a concrete unparsable server type string. -/
theorem c10_type_parse_failure_single_error_witness :
    validateServerField
        ⟨"a:27017", ServerType.kRSPrimary, none, none, none, none, 2, 8⟩
        "type" (BVal.vstr "Leader") =
      some [(serverDescriptionFieldName
        ⟨"a:27017", ServerType.kRSPrimary, none, none, none, none, 2, 8⟩ "type",
        "Unknown server type: Leader")] :=
  c10_type_parse_failure_single_error
    ⟨"a:27017", ServerType.kRSPrimary, none, none, none, none, 2, 8⟩
    "Leader" "Unknown server type: Leader" (by rfl)

end Sdam

namespace Sdam

/-- Indexing lemma for the response-conversion loop: element `i` of the
converted outcome list is determined by element `i` of the responses array. -/
theorem mkResponses_index (rs : List BVal) (outs : List IsMasterOutcome)
    (i : Nat) (v : BVal) (addr : String) (o : BObj)
    (hmk : mkResponses rs = some outs) (hv : rs[i]? = some v)
    (hdec : decodeResponsePair v = some (addr, o)) :
    outs[i]? =
      some (if o.length = 0 then IsMasterOutcome.failure addr "network error"
            else IsMasterOutcome.success addr o kLatency) := by
  induction rs generalizing outs i with
  | nil => simp at hv
  | cons w rest ih =>
    rw [mkResponses] at hmk
    cases hd : decodeResponsePair w with
    | none => rw [hd] at hmk; simp at hmk
    | some p =>
      rw [hd] at hmk
      cases ht : mkResponses rest with
      | none => rw [ht] at hmk; simp at hmk
      | some tail =>
        rw [ht] at hmk
        simp only [Option.some.injEq] at hmk
        subst hmk
        cases i with
        | zero =>
          simp only [List.getElem?_cons_zero, Option.some.injEq] at hv
          subst hv
          rw [hd] at hdec
          cases hdec
          simp only [List.getElem?_cons_zero, Option.some.injEq]
          by_cases hlen : o.length = 0 <;> simp [hlen]
        | succ j =>
          simp only [List.getElem?_cons_succ] at hv ⊢
          exact ih tail j ht hv

/-- And the converted list has the same length as the responses array. -/
theorem mkResponses_length (rs : List BVal) (outs : List IsMasterOutcome)
    (hmk : mkResponses rs = some outs) : outs.length = rs.length := by
  induction rs generalizing outs with
  | nil => rw [mkResponses] at hmk; simp at hmk; simp [hmk]
  | cons w rest ih =>
    rw [mkResponses] at hmk
    cases hd : decodeResponsePair w with
    | none => rw [hd] at hmk; simp at hmk
    | some p =>
      rw [hd] at hmk
      cases ht : mkResponses rest with
      | none => rw [ht] at hmk; simp at hmk
      | some tail =>
        rw [ht] at hmk
        simp only [Option.some.injEq] at hmk
        subst hmk
        simp [ih tail ht]

/-- C1: in a parsed test phase, every decoded response pair whose reply
document has zero fields becomes a failure outcome carrying the message
"network error" and no reply payload, despite the transport-level decode
having succeeded; every other pair becomes a success outcome carrying the
reply and the fixed latency `kLatency`. -/
theorem c1_zero_field_reply_network_error (pn : Int) (phase : BObj)
    (tcp : TestCasePhase) (rs : List BVal) (i : Nat) (v : BVal)
    (addr : String) (o : BObj)
    (hmk : mkTestCasePhase pn phase = some tcp)
    (hrs : bsonGetField phase "responses" = some (BVal.varr rs))
    (hv : rs[i]? = some v)
    (hdec : decodeResponsePair v = some (addr, o)) :
    tcp.isMasterResponses[i]? =
      some (if o.length = 0 then IsMasterOutcome.failure addr "network error"
            else IsMasterOutcome.success addr o kLatency) := by
  rw [mkTestCasePhase, hrs] at hmk
  dsimp only at hmk
  cases hmo : mkResponses rs with
  | none => rw [hmo] at hmk; simp at hmk
  | some outs =>
    rw [hmo] at hmk
    cases hoc : bsonGetField phase "outcome" with
    | none => rw [hoc] at hmk; simp at hmk
    | some w =>
      rw [hoc] at hmk
      cases w <;> try exact Option.noConfusion hmk
      case vobj fields =>
        injection hmk with h
        subst h
        exact mkResponses_index rs outs i v addr o hmo hv hdec

/-- Witness for C1: a phase with one empty reply and one non-empty reply;
the empty reply at index 0 becomes the network-error failure outcome. -/
theorem c1_zero_field_reply_network_error_witness :
    mkTestCasePhase 0
        [("responses", BVal.varr
            [BVal.varr [BVal.vstr "a:1", BVal.vobj []],
             BVal.varr [BVal.vstr "b:2", BVal.vobj [("ok", BVal.vint 1)]]]),
         ("outcome", BVal.vobj [])] =
      some ⟨0, [IsMasterOutcome.failure "a:1" "network error",
                IsMasterOutcome.success "b:2" [("ok", BVal.vint 1)] kLatency], []⟩ ∧
    ([IsMasterOutcome.failure "a:1" "network error",
      IsMasterOutcome.success "b:2" [("ok", BVal.vint 1)] kLatency] : List IsMasterOutcome)[0]? =
      some (IsMasterOutcome.failure "a:1" "network error") :=
  ⟨rfl,
   c1_zero_field_reply_network_error 0
    [("responses", BVal.varr
        [BVal.varr [BVal.vstr "a:1", BVal.vobj []],
         BVal.varr [BVal.vstr "b:2", BVal.vobj [("ok", BVal.vint 1)]]]),
     ("outcome", BVal.vobj [])]
    ⟨0, [IsMasterOutcome.failure "a:1" "network error",
         IsMasterOutcome.success "b:2" [("ok", BVal.vint 1)] kLatency], []⟩
    [BVal.varr [BVal.vstr "a:1", BVal.vobj []],
     BVal.varr [BVal.vstr "b:2", BVal.vobj [("ok", BVal.vint 1)]]]
    0 (BVal.varr [BVal.vstr "a:1", BVal.vobj []]) "a:1" []
    rfl rfl rfl rfl⟩

end Sdam

namespace Sdam

/-- C4: for the optional per-server fields setName, setVersion, electionId
and logicalSessionTimeoutMinutes, a BSON null expected value is compared as
the absent optional and succeeds (no error) exactly when the server
description's optional is absent; a present expected value succeeds exactly
when the optional is present with the same value. -/
theorem c4_null_expected_is_absent_optional (sd : ServerDescription) :
    (validateServerField sd "setName" BVal.vnull = some [] ↔
       sd.setName = none) ∧
    (∀ s : String, validateServerField sd "setName" (BVal.vstr s) = some [] ↔
       sd.setName = some s) ∧
    (validateServerField sd "setVersion" BVal.vnull = some [] ↔
       sd.setVersion = none) ∧
    (∀ n : Int, validateServerField sd "setVersion" (BVal.vint n) = some [] ↔
       sd.setVersion = some n) ∧
    (validateServerField sd "electionId" BVal.vnull = some [] ↔
       sd.electionId = none) ∧
    (∀ e : String, validateServerField sd "electionId" (BVal.voidv e) = some [] ↔
       sd.electionId = some e) ∧
    (validateServerField sd "logicalSessionTimeoutMinutes" BVal.vnull = some [] ↔
       sd.logicalSessionTimeoutMinutes = none) ∧
    (∀ n : Int,
       validateServerField sd "logicalSessionTimeoutMinutes" (BVal.vint n) = some [] ↔
       sd.logicalSessionTimeoutMinutes = some n) := by
  refine ⟨?_, ?_, ?_, ?_, ?_, ?_, ?_, ?_⟩ <;>
    (try intro x) <;>
    simp [validateServerField, doValidateServerField, expOptString, expOptInt,
      expOptOID, numberInt] <;>
    (constructor <;> (intro h <;> simp [h] at * <;> omega))

end Sdam

namespace Sdam

/-- The number of errors one topology-description field check records:
one exactly when expected and actual differ. -/
theorem doValidateTDField_length {α : Type} [BEq α] [LawfulBEq α] [DecidableEq α]
    (fn : String) (sh : α → String) (e a : α) :
    (doValidateTDField fn sh e a).length = if e = a then 0 else 1 := by
  unfold doValidateTDField
  by_cases h : e = a <;> simp [h]

/-- C3: when phase-outcome validation completes, the error count is one per
mismatching validated field, where topologyType, setName and
logicalSessionTimeoutMinutes are always validated and maxSetVersion,
maxElectionId and compatible only when the expected outcome document
contains the field. -/
theorem c3_outcome_validation_error_count (td : TopologyDescription)
    (o : BObj) (errs : List TestPhaseError)
    (h : validateTopologyDescription td o = some errs) :
    errs.length =
      (if expTopologyType o = some (topologyTypeToString td.ttype) then 0 else 1)
      + (if expSetNameTD o = some td.setName then 0 else 1)
      + (if expLsTimeoutTD o = td.logicalSessionTimeoutMinutes then 0 else 1)
      + (if bsonHasField o "maxSetVersion" then
           (if expMaxSetVersionTD o = td.maxSetVersion then 0 else 1) else 0)
      + (if bsonHasField o "maxElectionId" then
           (if expMaxElectionIdTD o = some td.maxElectionId then 0 else 1) else 0)
      + (if bsonHasField o "compatible" then
           (if expCompatibleTD o = some td.compatible then 0 else 1) else 0) := by
  simp only [validateTopologyDescription] at h
  cases h1 : expTopologyType o with
  | none => rw [h1] at h; exact Option.noConfusion h
  | some tt =>
  rw [h1] at h
  cases h2 : expSetNameTD o with
  | none => rw [h2] at h; exact Option.noConfusion h
  | some sn =>
  rw [h2] at h
  by_cases h5 : bsonHasField o "maxElectionId"
  · rw [if_pos h5] at h
    cases hme : expMaxElectionIdTD o with
    | none => rw [hme] at h; exact Option.noConfusion h
    | some me =>
    rw [hme] at h
    simp only [Option.map_some'] at h
    by_cases h6 : bsonHasField o "compatible"
    · rw [if_pos h6] at h
      cases hcp : expCompatibleTD o with
      | none => rw [hcp] at h; exact Option.noConfusion h
      | some cp =>
      rw [hcp] at h
      simp only [Option.map_some', Option.some.injEq] at h
      subst h
      by_cases h4 : bsonHasField o "maxSetVersion" <;>
        simp [h1, h2, h4, h5, h6, hme, hcp, doValidateTDField_length,
          List.length_append] <;> omega
    · rw [if_neg h6] at h
      simp only [Option.some.injEq] at h
      subst h
      by_cases h4 : bsonHasField o "maxSetVersion" <;>
        simp [h1, h2, h4, h5, h6, hme, doValidateTDField_length,
          List.length_append] <;> omega
  · rw [if_neg h5] at h
    by_cases h6 : bsonHasField o "compatible"
    · rw [if_pos h6] at h
      cases hcp : expCompatibleTD o with
      | none => rw [hcp] at h; exact Option.noConfusion h
      | some cp =>
      rw [hcp] at h
      simp only [Option.map_some', Option.some.injEq] at h
      subst h
      by_cases h4 : bsonHasField o "maxSetVersion" <;>
        simp [h1, h2, h4, h5, h6, hcp, doValidateTDField_length,
          List.length_append] <;> omega
    · rw [if_neg h6] at h
      simp only [Option.some.injEq] at h
      subst h
      by_cases h4 : bsonHasField o "maxSetVersion" <;>
        simp [h1, h2, h4, h5, h6, doValidateTDField_length,
          List.length_append] <;> omega

end Sdam

namespace Sdam

/-- The failure counter of `report`'s fold equals the number of unsuccessful
results, whatever the accumulator starts at. -/
theorem report_foldl_failed (l : List TestCaseResult) (a b : Int) :
    (l.foldl (fun (acc : Int × Int) r =>
        if r.success then (acc.1 + 1, acc.2) else (acc.1, acc.2 + 1)) (a, b)).2
      = b + ((l.filter (fun r => !r.success)).length : Int) := by
  induction l generalizing a b with
  | nil => simp
  | cons r rest ih =>
    by_cases hr : r.success = true <;>
      simp [List.foldl_cons, hr, ih] <;> push_cast <;> ring

/-- C5: mismatches are recorded as (subject, description) pairs
(`TestPhaseError`), and the process return value — `report` over the results
of `runTests` — equals the number of test cases with at least one failed
phase; it is zero exactly when every test case succeeds. -/
theorem c5_exit_code_counts_failed_cases (results : List TestCaseResult)
    (files : List TestFileRun) :
    report results = ((results.filter (fun r => !r.success)).length : Int) ∧
    mainResult files =
      (((runTests files).filter (fun r => !r.success)).length : Int) ∧
    (mainResult files = 0 ↔ ∀ r ∈ runTests files, r.success = true) := by
  refine ⟨?_, ?_, ?_⟩
  · rw [report, report_foldl_failed]; ring
  · rw [mainResult, report, report_foldl_failed]; ring
  · rw [mainResult, report, report_foldl_failed]
    simp [List.filter_eq_nil, List.length_eq_zero]

/-- The phase loop with a successful accumulator runs phases until the first
failure: it extends the accumulator with the `takeUntilFail` prefix of the
sequential results. -/
theorem execPhaseLoop_eq {S A : Type} (step : S → A → PhaseResult × S)
    (phases : List A) :
    ∀ (s : S) (acc : List PhaseResult), acc.all PhaseResult.success = true →
      execPhaseLoop step s phases acc =
        acc ++ takeUntilFail (allPhaseResults step s phases) := by
  induction phases with
  | nil => intro s acc _; simp [execPhaseLoop, allPhaseResults, takeUntilFail]
  | cons p rest ih =>
    intro s acc hacc
    rw [execPhaseLoop, allPhaseResults]
    by_cases hr : (step s p).1.success = true
    · have hall : (acc ++ [(step s p).1]).all PhaseResult.success = true := by
        simp [List.all_append, hacc, hr]
      rw [if_pos hall, ih (step s p).2 (acc ++ [(step s p).1]) hall,
        takeUntilFail, if_pos hr]
      simp
    · have hnall : ¬(acc ++ [(step s p).1]).all PhaseResult.success = true := by
        simp [List.all_append, hr]
      rw [if_neg hnall, takeUntilFail, if_neg hr]

/-- C8: `JsonTestCase::execute` runs phases in order and stops at the first
phase whose validation records an error: the collected results are exactly
the sequential per-phase results up to and including the first failing one. -/
theorem c8_execution_stops_at_first_failed_phase {S A : Type}
    (step : S → A → PhaseResult × S) (s : S) (phases : List A) :
    executeCase step s phases =
      takeUntilFail (allPhaseResults step s phases) := by
  rw [executeCase, execPhaseLoop_eq step phases s [] (by simp)]
  simp

/-- C9: one test file's `DBException` during execution is caught: the file
contributes a failed result holding the single error ("exception", message)
at phase number 0, every other file's result is untouched, and every file
still contributes exactly one result. -/
theorem c9_exception_recorded_and_run_continues (files : List TestFileRun)
    (i : Nat) (f : TestFileRun) (h : files[i]? = some f) :
    (runTests files).length = files.length ∧
    (runTests files)[i]? = some (match f.exec with
      | Except.ok r => r
      | Except.error e => exceptionCaseResult f.path f.name e) ∧
    (∀ e, f.exec = Except.error e →
      (exceptionCaseResult f.path f.name e).success = false ∧
      (exceptionCaseResult f.path f.name e).phaseResults =
        [⟨[("exception", excMessage f.path e)], 0⟩]) := by
  refine ⟨by simp [runTests], ?_, ?_⟩
  · rw [runTests, List.getElem?_map, h]
    rfl
  · intro e he
    exact ⟨by simp [exceptionCaseResult, TestCaseResult.success,
      PhaseResult.success], rfl⟩

/-- Witness for C9: a run of two files where the first throws; its result is
the recorded exception failure. -/
theorem c9_exception_recorded_and_run_continues_witness :
    (runTests [⟨"a.json", "t1", Except.error "boom"⟩,
               ⟨"b.json", "t2", Except.ok ⟨[], "b.json", "t2"⟩⟩]).length = 2 ∧
    (runTests [⟨"a.json", "t1", Except.error "boom"⟩,
               ⟨"b.json", "t2", Except.ok ⟨[], "b.json", "t2"⟩⟩])[0]? =
      some (exceptionCaseResult "a.json" "t1" "boom") ∧
    (∀ e : String, (Except.error "boom" : Except String TestCaseResult) =
        Except.error e →
      (exceptionCaseResult "a.json" "t1" e).success = false ∧
      (exceptionCaseResult "a.json" "t1" e).phaseResults =
        [⟨[("exception", excMessage "a.json" e)], 0⟩]) :=
  c9_exception_recorded_and_run_continues
    [⟨"a.json", "t1", Except.error "boom"⟩,
     ⟨"b.json", "t2", Except.ok ⟨[], "b.json", "t2"⟩⟩] 0
    ⟨"a.json", "t1", Except.error "boom"⟩ rfl

end Sdam

namespace Sdam

/-- `optLt` is transitive. -/
theorem optLt_trans {a b c : Option Int} (h1 : optLt a b = true)
    (h2 : optLt b c = true) : optLt a c = true := by
  cases a <;> cases b <;> cases c <;> simp [optLt] at * <;> omega

/-- The lexicographic strict order on version pairs is transitive. -/
theorem pairLt_trans {p q r : Option Int × Option Int}
    (h1 : pairLt p q = true) (h2 : pairLt q r = true) :
    pairLt p r = true := by
  obtain ⟨a, b⟩ := p; obtain ⟨c, d⟩ := q; obtain ⟨e, f⟩ := r
  simp only [pairLt, Bool.or_eq_true, Bool.and_eq_true, beq_iff_eq] at *
  rcases h1 with h1 | ⟨h1, h1d⟩ <;> rcases h2 with h2 | ⟨h2, h2d⟩
  · exact Or.inl (optLt_trans h1 h2)
  · subst h2; exact Or.inl h1
  · subst h1; exact Or.inl h2
  · subst h1; subst h2; exact Or.inr ⟨rfl, optLt_trans h1d h2d⟩

/-- The lexicographic order on version pairs is reflexive. -/
theorem pairLe_refl (p : Option Int × Option Int) : pairLe p p = true := by
  simp [pairLe]

/-- The lexicographic order on version pairs is transitive. -/
theorem pairLe_trans {p q r : Option Int × Option Int}
    (h1 : pairLe p q = true) (h2 : pairLe q r = true) :
    pairLe p r = true := by
  simp only [pairLe, Bool.or_eq_true, beq_iff_eq] at *
  rcases h1 with h1 | h1 <;> rcases h2 with h2 | h2
  · exact Or.inl (pairLt_trans h1 h2)
  · subst h2; exact Or.inl h1
  · subst h1; exact Or.inl h2
  · subst h1; exact Or.inr h2

/-- One accepted update never lowers the (maxSetVersion, maxElectionId)
pair. -/
theorem applyUpdate_pair_mono (s : TopologySnapshot) (u : ServerReport) :
    pairLe s.pair (applyUpdate s u).pair = true := by
  rw [applyUpdate]
  by_cases hp : u.isPrimary = true
  · rw [if_pos hp]
    by_cases hlt : pairLt s.pair (u.setVersion, u.electionId) = true
    · rw [if_pos hlt]
      simp only [pairLe, Bool.or_eq_true]
      exact Or.inl hlt
    · rw [if_neg hlt]; exact pairLe_refl s.pair
  · rw [if_neg hp]; exact pairLe_refl s.pair

/-- C6: across any sequence of updates applied by the Manager, the
(maxSetVersion, maxElectionId) pair of the later snapshot is greater than or
equal to that of the earlier snapshot under the defined lexicographic order;
in particular (taking a one-element sequence) it never decreases between two
successive snapshots. -/
theorem c6_max_pair_never_decreases (s : TopologySnapshot)
    (us : List ServerReport) :
    pairLe s.pair (us.foldl applyUpdate s).pair = true := by
  induction us generalizing s with
  | nil => exact pairLe_refl s.pair
  | cons u rest ih =>
    rw [List.foldl_cons]
    exact pairLe_trans (applyUpdate_pair_mono s u) (ih (applyUpdate s u))

end Sdam

namespace Sdam

/-- Witness for C3: a description and outcome document that validate with no
errors; the always-validated fields match and the optional fields are
absent from the outcome. -/
theorem c3_outcome_validation_error_count_witness :
    validateTopologyDescription
        ⟨TopologyType.kSingle, none, some 0, none, none, true⟩
        [("topologyType", BVal.vstr "Single"), ("setName", BVal.vnull)] =
      some [] ∧
    ([] : List TestPhaseError).length =
      (if expTopologyType
            [("topologyType", BVal.vstr "Single"), ("setName", BVal.vnull)] =
          some (topologyTypeToString
            (⟨TopologyType.kSingle, none, some 0, none, none, true⟩ :
              TopologyDescription).ttype) then 0 else 1)
      + (if expSetNameTD
            [("topologyType", BVal.vstr "Single"), ("setName", BVal.vnull)] =
          some (⟨TopologyType.kSingle, none, some 0, none, none, true⟩ :
            TopologyDescription).setName then 0 else 1)
      + (if expLsTimeoutTD
            [("topologyType", BVal.vstr "Single"), ("setName", BVal.vnull)] =
          (⟨TopologyType.kSingle, none, some 0, none, none, true⟩ :
            TopologyDescription).logicalSessionTimeoutMinutes then 0 else 1)
      + (if bsonHasField
            [("topologyType", BVal.vstr "Single"), ("setName", BVal.vnull)]
            "maxSetVersion" then
           (if expMaxSetVersionTD
                [("topologyType", BVal.vstr "Single"), ("setName", BVal.vnull)] =
              (⟨TopologyType.kSingle, none, some 0, none, none, true⟩ :
                TopologyDescription).maxSetVersion then 0 else 1) else 0)
      + (if bsonHasField
            [("topologyType", BVal.vstr "Single"), ("setName", BVal.vnull)]
            "maxElectionId" then
           (if expMaxElectionIdTD
                [("topologyType", BVal.vstr "Single"), ("setName", BVal.vnull)] =
              some (⟨TopologyType.kSingle, none, some 0, none, none, true⟩ :
                TopologyDescription).maxElectionId then 0 else 1) else 0)
      + (if bsonHasField
            [("topologyType", BVal.vstr "Single"), ("setName", BVal.vnull)]
            "compatible" then
           (if expCompatibleTD
                [("topologyType", BVal.vstr "Single"), ("setName", BVal.vnull)] =
              some (⟨TopologyType.kSingle, none, some 0, none, none, true⟩ :
                TopologyDescription).compatible then 0 else 1) else 0) :=
  ⟨rfl,
   c3_outcome_validation_error_count
     ⟨TopologyType.kSingle, none, some 0, none, none, true⟩
     [("topologyType", BVal.vstr "Single"), ("setName", BVal.vnull)] [] rfl⟩

end Sdam
